import Mathlib

/-!
Verification development for the habit-tracker app (`src/app.py`).

The program keeps its state as a Python dict `{"todos": [...], "habits": [...]}`
serialized to a single JSON file `data.json`.  We embed:

* `JsonVal` — the JSON values `json.load`/`json.dump` exchange (numbers are
  abstracted as integers; no property here depends on numeric values);
* the persistence layer `load_data` / `save_data` (app.py lines 15–42),
  including the Python semantics of `k in raw` and `raw[k] = v` on arbitrary
  JSON values, since `load_data` runs them on the untrusted parsed value;
* the record store operations `add_todo`, `delete_todo`, `toggle_todo`,
  `add_habit`, `delete_habit`, `toggle_habit_today`, `clear_all_data`
  (app.py lines 58–117) over a typed `AppState`, each returning the new state
  together with a flag recording whether `save_data` was invoked;
* a dict-level model `toggle_habit_today_raw` of `toggle_habit_today`, needed
  to reason about records that lack the `completed_dates` key (a `KeyError`).
-/

namespace HabitApp

/-- JSON values as produced by `json.load`.  Numbers are modelled as integers:
no claim about this program depends on a numeric field. -/
inductive JsonVal where
  | null
  | bool (b : Bool)
  | num (n : Int)
  | str (s : String)
  | arr (xs : List JsonVal)
  | obj (fields : List (String × JsonVal))

/-- Content of the storage file: either text that `json.load` parses to a
value, or text it rejects with an exception. -/
inductive FileData where
  | wellFormed (j : JsonVal)
  | malformed (raw : String)

/-- app.py line 10: `DATA_FILE = "data.json"`. -/
def DATA_FILE : String := "data.json"

/-- The `default` dict of `load_data` (app.py lines 17–20). -/
def defaultData : JsonVal := .obj [("todos", .arr []), ("habits", .arr [])]

/-- Backup file name built at app.py line 32:
`f"{DATA_FILE}.bak.{int(datetime.now().timestamp())}"`. -/
def backupName (now : Nat) : String := DATA_FILE ++ ".bak." ++ toString now

/-- First-occurrence key lookup in a JSON object (Python dict indexing; dict
keys are unique, so first occurrence is the only one). -/
def lookupKey : List (String × JsonVal) → String → Option JsonVal
  | [], _ => none
  | (k', v) :: rest, k => if k' = k then some v else lookupKey rest k

/-- Python dict assignment `d[k] = v`: update the existing entry in place, or
append a new entry at the end (insertion order). -/
def setKey : List (String × JsonVal) → String → JsonVal → List (String × JsonVal)
  | [], k, v => [(k, v)]
  | (k', v') :: rest, k, v =>
    if k' = k then (k, v) :: rest else (k', v') :: setKey rest k v

/-- Python `==` between a string and an arbitrary JSON value: true exactly for
the equal string (a string never equals a number, list, dict, bool or None). -/
def pyEqStr (k : String) : JsonVal → Bool
  | .str s => k = s
  | _ => false

/-- Whether the character list `pat` starts the character list `l`. -/
def startsWith : List Char → List Char → Bool
  | [], _ => true
  | _ :: _, [] => false
  | a :: as, b :: bs => a == b && startsWith as bs

/-- Whether `pat` occurs contiguously inside `l`. -/
def hasSub (pat : List Char) : List Char → Bool
  | [] => pat.isEmpty
  | c :: rest => startsWith pat (c :: rest) || hasSub pat rest

/-- Python substring test `pat in s` on strings. -/
def isSubstr (pat s : String) : Bool := hasSub pat.toList s.toList

/-- Python membership `k in j` for a string `k` and an arbitrary JSON value:
key membership on dicts, substring on strings, element equality on lists, and
a `TypeError` on numbers, booleans and None. -/
def pyContains (j : JsonVal) (k : String) : Except Unit Bool :=
  match j with
  | .obj fields => .ok (lookupKey fields k).isSome
  | .str s => .ok (isSubstr k s)
  | .arr xs => .ok (xs.any (pyEqStr k))
  | _ => .error ()

/-- Python item assignment `j[k] = v`: valid on dicts, a `TypeError` on
strings, lists (string index), numbers, booleans and None. -/
def pySetItem (j : JsonVal) (k : String) (v : JsonVal) : Except Unit JsonVal :=
  match j with
  | .obj fields => .ok (.obj (setKey fields k v))
  | _ => .error ()

/-- One iteration of the merge loop of `load_data` (app.py lines 26–28):
`if k not in raw: raw[k] = v`. -/
def mergeStep (j : JsonVal) (k : String) (v : JsonVal) : Except Unit JsonVal := do
  let c ← pyContains j k
  if c then pure j else pySetItem j k v

/-- The whole merge loop: `default.items()` iterates `"todos"` then
`"habits"`, each defaulted to the empty list. -/
def mergeDefaults (j : JsonVal) : Except Unit JsonVal := do
  let j1 ← mergeStep j "todos" (.arr [])
  mergeStep j1 "habits" (.arr [])

/-- Result of `load_data`: the returned dict, and the backup file
(name and content) created by the corruption branch, if any. -/
structure LoadOutcome where
  result : JsonVal
  backup : Option (String × FileData)

/-- app.py lines 15–36.  `file` is the current content of `DATA_FILE`
(`none` when the file does not exist); `now` is the Unix timestamp used for
the backup name.  The `try` block covers parsing, the merge loop and the
return, so any exception in the merge loop also takes the backup branch. -/
def load_data (file : Option FileData) (now : Nat) : LoadOutcome :=
  match file with
  | none => { result := defaultData, backup := none }
  | some (.malformed raw) =>
    { result := defaultData, backup := some (backupName now, .malformed raw) }
  | some (.wellFormed j) =>
    match mergeDefaults j with
    | .ok j1 => { result := j1, backup := none }
    | .error _ =>
      { result := defaultData, backup := some (backupName now, .wellFormed j) }

/-- app.py lines 39–42: `json.dump(data, f, ...)`.  The serializer is
faithful: the written text parses back (by `json.load`) to the same value,
so the file content is modelled as `wellFormed data`. -/
def save_data (data : JsonVal) : FileData := .wellFormed data

/-! ### Typed record store

The store operations only ever build records with the full field set, so we
give them over typed records; `toggle_habit_today_raw` below keeps the raw
dict view where field absence matters. -/

/-- A task record as built by `add_todo` (app.py lines 62–67). -/
structure Todo where
  id : String
  text : String
  done : Bool
  created_at : String
deriving DecidableEq

/-- A habit record as built by `add_habit` (app.py lines 88–93). -/
structure Habit where
  id : String
  name : String
  created_at : String
  completed_dates : List String
deriving DecidableEq

/-- The in-memory `st.session_state.app_data` in its intended shape. -/
structure AppState where
  todos : List Todo
  habits : List Habit
deriving DecidableEq

def encodeTodo (t : Todo) : JsonVal :=
  .obj [("id", .str t.id), ("text", .str t.text), ("done", .bool t.done),
        ("created_at", .str t.created_at)]

def encodeHabit (h : Habit) : JsonVal :=
  .obj [("id", .str h.id), ("name", .str h.name),
        ("created_at", .str h.created_at),
        ("completed_dates", .arr (h.completed_dates.map .str))]

/-- The dict `{"todos": [...], "habits": [...]}` holding a typed state. -/
def encodeState (s : AppState) : JsonVal :=
  .obj [("todos", .arr (s.todos.map encodeTodo)),
        ("habits", .arr (s.habits.map encodeHabit))]

def asStr : Option JsonVal → Option String
  | some (.str s) => some s
  | _ => none

def asBool : Option JsonVal → Option Bool
  | some (.bool b) => some b
  | _ => none

def decodeStrList : List JsonVal → Option (List String)
  | [] => some []
  | .str s :: rest => (decodeStrList rest).map (s :: ·)
  | _ => none

def decodeTodo : JsonVal → Option Todo
  | .obj fields =>
    match asStr (lookupKey fields "id"), asStr (lookupKey fields "text"),
          asBool (lookupKey fields "done"),
          asStr (lookupKey fields "created_at") with
    | some i, some t, some d, some c => some ⟨i, t, d, c⟩
    | _, _, _, _ => none
  | _ => none

def decodeTodoList : List JsonVal → Option (List Todo)
  | [] => some []
  | j :: rest =>
    match decodeTodo j, decodeTodoList rest with
    | some t, some ts => some (t :: ts)
    | _, _ => none

def decodeHabit : JsonVal → Option Habit
  | .obj fields =>
    match asStr (lookupKey fields "id"), asStr (lookupKey fields "name"),
          asStr (lookupKey fields "created_at"),
          lookupKey fields "completed_dates" with
    | some i, some n, some c, some (.arr ds) =>
      match decodeStrList ds with
      | some dates => some ⟨i, n, c, dates⟩
      | none => none
    | _, _, _, _ => none
  | _ => none

def decodeHabitList : List JsonVal → Option (List Habit)
  | [] => some []
  | j :: rest =>
    match decodeHabit j, decodeHabitList rest with
    | some h, some hs => some (h :: hs)
    | _, _ => none

/-- Reading the two collections back out of the stored dict. -/
def decodeState (j : JsonVal) : Option AppState :=
  match j with
  | .obj fields =>
    match lookupKey fields "todos", lookupKey fields "habits" with
    | some (.arr ts), some (.arr hs) =>
      match decodeTodoList ts, decodeHabitList hs with
      | some todos, some habits => some ⟨todos, habits⟩
      | _, _ => none
    | _, _ => none
  | _ => none

/-- Whitespace characters removed by Python `str.strip` (ASCII range). -/
def isSpace (c : Char) : Bool :=
  c == ' ' || c == '\t' || c == '\n' || c == '\r' || c.toNat == 11 || c.toNat == 12

/-- Python `str.strip()`: drop leading and trailing whitespace. -/
def strip (s : String) : String :=
  ⟨((s.toList.dropWhile isSpace).reverse.dropWhile isSpace).reverse⟩

/-- app.py lines 58–68.  `id` and `created_at` stand for the values returned
by `new_id()` (`uuid.uuid4`) and `datetime.now().isoformat()`.  The boolean
records whether `save_data` was invoked. -/
def add_todo (text id created_at : String) (s : AppState) : AppState × Bool :=
  if strip text = "" then (s, false)
  else
    ({ s with todos := s.todos ++
        [{ id := id, text := strip text, done := false, created_at := created_at }] },
     true)

/-- app.py lines 71–73: keep every todo whose id differs; always saves. -/
def delete_todo (todo_id : String) (s : AppState) : AppState × Bool :=
  ({ s with todos := s.todos.filter (fun t => t.id != todo_id) }, true)

/-- The loop of `toggle_todo` (app.py lines 77–80): flip `done` on the first
record with the given id, then `break`. -/
def toggleFirstTodo (todo_id : String) : List Todo → List Todo
  | [] => []
  | t :: rest =>
    if t.id = todo_id then { t with done := !t.done } :: rest
    else t :: toggleFirstTodo todo_id rest

/-- app.py lines 76–81; always saves, also when no id matches. -/
def toggle_todo (todo_id : String) (s : AppState) : AppState × Bool :=
  ({ s with todos := toggleFirstTodo todo_id s.todos }, true)

/-- app.py lines 84–94. -/
def add_habit (name id created_at : String) (s : AppState) : AppState × Bool :=
  if strip name = "" then (s, false)
  else
    ({ s with habits := s.habits ++
        [{ id := id, name := strip name, created_at := created_at,
           completed_dates := [] }] },
     true)

/-- app.py lines 97–99. -/
def delete_habit (habit_id : String) (s : AppState) : AppState × Bool :=
  ({ s with habits := s.habits.filter (fun h => h.id != habit_id) }, true)

/-- The body of the match in `toggle_habit_today` (app.py lines 106–109):
append today if checking and absent, remove the first occurrence if
unchecking and present (`list.remove`), otherwise leave alone. -/
def updDates (checked : Bool) (today : String) (ds : List String) : List String :=
  if checked ∧ today ∉ ds then ds ++ [today]
  else if ¬checked ∧ today ∈ ds then ds.erase today
  else ds

/-- The loop of `toggle_habit_today` (app.py lines 104–110): update the first
record with the given id, then `break`. -/
def toggleHabitsList (habit_id : String) (checked : Bool) (today : String) :
    List Habit → List Habit
  | [] => []
  | h :: rest =>
    if h.id = habit_id then
      { h with completed_dates := updDates checked today h.completed_dates } :: rest
    else h :: toggleHabitsList habit_id checked today rest

/-- app.py lines 102–111.  `today` stands for `date.today().isoformat()`;
`save_data` is always invoked, also when no id matches. -/
def toggle_habit_today (habit_id : String) (checked : Bool) (today : String)
    (s : AppState) : AppState × Bool :=
  ({ s with habits := toggleHabitsList habit_id checked today s.habits }, true)

/-- app.py lines 114–117: `def clear_all_data(confirm=False)`.  Only with
`confirm` does it reset the state and save; otherwise nothing happens. -/
def clear_all_data (confirm : Bool) (s : AppState) : AppState × Bool :=
  if confirm then ({ todos := [], habits := [] }, true) else (s, false)

/-! ### Further definitions used by the claims below -/

/-- A concrete populated state used in counterexamples. -/
def populatedState : AppState :=
  { todos := [{ id := "t1", text := "buy milk", done := false,
                created_at := "2024-01-01T00:00:00" }],
    habits := [] }

/-- The seven mutating store operations, with the ambient inputs
(`new_id()`, `datetime.now()`, `date.today()`) made explicit. -/
inductive Op where
  | addTodo (text id created_at : String)
  | deleteTodo (todo_id : String)
  | toggleTodo (todo_id : String)
  | addHabit (name id created_at : String)
  | deleteHabit (habit_id : String)
  | setHabitToday (habit_id : String) (checked : Bool) (today : String)
  | clearAll (confirm : Bool)

/-- The in-memory effect of one operation, together with whether it reaches
its `save_data` call. -/
def applyOp : Op → AppState → AppState × Bool
  | .addTodo text id c, s => add_todo text id c s
  | .deleteTodo i, s => delete_todo i s
  | .toggleTodo i, s => toggle_todo i s
  | .addHabit n id c, s => add_habit n id c s
  | .deleteHabit i, s => delete_habit i s
  | .setHabitToday i ch td, s => toggle_habit_today i ch td s
  | .clearAll c, s => clear_all_data c s

/-- One operation run against a fallible `save_data`: the mutation happens in
place on the session state first; if the subsequent write raises (`saveOk =
false` models an `IOError` in `save_data`), the exception propagates out of
the operation, and the session state keeps the mutated value — which the
error therefore carries. -/
def runOp (op : Op) (saveOk : Bool) (s : AppState) : Except AppState AppState :=
  match applyOp op s with
  | (s1, true) => if saveOk then .ok s1 else .error s1
  | (s1, false) => .ok s1

/-- A habit whose `completed_dates` holds a duplicated date, as a loaded file
may contain (nothing in `load_data` rules it out). -/
def dupHabit : Habit :=
  { id := "h1", name := "stretch", created_at := "2024-01-01T00:00:00",
    completed_dates := ["2024-06-01", "2024-06-01"] }

/-- The task ids of a state, in insertion order. -/
def taskIds (s : AppState) : List String := s.todos.map Todo.id

/-- The habit ids of a state, in insertion order. -/
def habitIds (s : AppState) : List String := s.habits.map Habit.id

/-- A creation call: `add_todo` or `add_habit`, with the id produced by
`new_id()` (app.py lines 48–49, `uuid.uuid4`) made explicit. -/
inductive AddOp where
  | task (text id created_at : String)
  | habit (name id created_at : String)

/-- The id the fresh-id generator supplied for the call. -/
def addOpId : AddOp → String
  | .task _ i _ => i
  | .habit _ i _ => i

/-- The state after one creation call. -/
def applyAdd : AddOp → AppState → AppState
  | .task t i c, s => (add_todo t i c s).1
  | .habit n i c, s => (add_habit n i c s).1

/-- The state after a sequence of creation calls. -/
def applyAdds (ops : List AddOp) (s : AppState) : AppState :=
  ops.foldl (fun s1 op => applyAdd op s1) s

/-- The fresh-id assumption: along the run, each call's generated id is
absent from the state that call sees (what `uuid.uuid4` guarantees). -/
inductive FreshSeq : AppState → List AddOp → Prop where
  | nil (s : AppState) : FreshSeq s []
  | cons (s : AppState) (op : AddOp) (ops : List AddOp)
      (ht : addOpId op ∉ taskIds s) (hh : addOpId op ∉ habitIds s)
      (hrest : FreshSeq (applyAdd op s) ops) : FreshSeq s (op :: ops)

/-- A record as Python sees it: a dict with string keys. -/
abbrev RawRecord := List (String × JsonVal)

/-- Python dict indexing `d[k]`: the value, or a `KeyError` when absent. -/
def dictGet (d : RawRecord) (k : String) : Except Unit JsonVal :=
  match lookupKey d k with
  | some v => .ok v
  | none => .error ()

/-- Python `list.append(item)`; an `AttributeError` on non-lists. -/
def pyAppend (container item : JsonVal) : Except Unit JsonVal :=
  match container with
  | .arr xs => .ok (.arr (xs ++ [item]))
  | _ => .error ()

/-- Drop the first element equal (Python `==`) to the string `x`. -/
def eraseFirstStr (x : String) : List JsonVal → List JsonVal
  | [] => []
  | v :: rest => if pyEqStr x v then rest else v :: eraseFirstStr x rest

/-- Python `list.remove(x)`: drop the first occurrence, a `ValueError` when
absent, an `AttributeError` on non-lists. -/
def pyRemoveStr (container : JsonVal) (x : String) : Except Unit JsonVal :=
  match container with
  | .arr xs =>
    if xs.any (pyEqStr x) then .ok (.arr (eraseFirstStr x xs)) else .error ()
  | _ => .error ()

/-- `toggle_habit_today` (app.py lines 102–111) at the dict level, where a
record may lack keys: walk the habit records, and on the first one whose
`id` equals the argument, read `completed_dates` — both the `if` and the
`elif` condition index it, so a missing key raises before any branch — then
append or remove today.  An exception escapes before `save_data` runs. -/
def toggle_habit_today_raw (habit_id : String) (checked : Bool) (today : String) :
    List RawRecord → Except Unit (List RawRecord)
  | [] => .ok []
  | h :: rest => do
    let idv ← dictGet h "id"
    if pyEqStr habit_id idv then do
      let cd ← dictGet h "completed_dates"
      let mem ← pyContains cd today
      if checked && !mem then do
        let cd1 ← pyAppend cd (.str today)
        pure (setKey h "completed_dates" cd1 :: rest)
      else if !checked && mem then do
        let cd1 ← pyRemoveStr cd today
        pure (setKey h "completed_dates" cd1 :: rest)
      else pure (h :: rest)
    else do
      let rest1 ← toggle_habit_today_raw habit_id checked today rest
      pure (h :: rest1)

/-- The record literal `add_habit` appends (app.py lines 88–93), at the dict
level: the `completed_dates` key is always present and empty. -/
def habitRawRecord (name id created_at : String) : RawRecord :=
  [("id", .str id), ("name", .str name), ("created_at", .str created_at),
   ("completed_dates", .arr [])]

/-! ### Supporting lemmas -/

theorem decodeStrList_encode (l : List String) :
    decodeStrList (l.map .str) = some l := by
  induction l with
  | nil => rfl
  | cons s rest ih => simp [decodeStrList, ih]

theorem decodeTodo_encode (t : Todo) : decodeTodo (encodeTodo t) = some t := by
  cases t
  simp [decodeTodo, encodeTodo, lookupKey, asStr, asBool]

theorem decodeHabit_encode (h : Habit) : decodeHabit (encodeHabit h) = some h := by
  cases h
  simp [decodeHabit, encodeHabit, lookupKey, asStr, decodeStrList_encode]

theorem decodeTodoList_encode (ts : List Todo) :
    decodeTodoList (ts.map encodeTodo) = some ts := by
  induction ts with
  | nil => rfl
  | cons t rest ih => simp [decodeTodoList, decodeTodo_encode, ih]

theorem decodeHabitList_encode (hs : List Habit) :
    decodeHabitList (hs.map encodeHabit) = some hs := by
  induction hs with
  | nil => rfl
  | cons h rest ih => simp [decodeHabitList, decodeHabit_encode, ih]

theorem decodeState_encodeState (s : AppState) :
    decodeState (encodeState s) = some s := by
  cases s
  simp [decodeState, encodeState, lookupKey, decodeTodoList_encode,
    decodeHabitList_encode]

theorem mergeDefaults_encodeState (s : AppState) :
    mergeDefaults (encodeState s) = .ok (encodeState s) := rfl

/-! ### C1 — persistence round trip -/

/-- C1.  Round-trip of persistence: for every AppState `S` — any lists of
task and habit records, including empty ones — writing `S` with `save_data`
and reading it back with `load_data` creates no backup and yields the very
same state, field for field; in particular empty collections come back as
empty sequences rather than being dropped. -/
theorem load_after_save_round_trip (s : AppState) (now : Nat) :
    (load_data (some (save_data (encodeState s))) now).backup = none ∧
    decodeState (load_data (some (save_data (encodeState s))) now).result = some s := by
  simp [load_data, save_data, mergeDefaults_encodeState, decodeState_encodeState]

/-! ### C2 — corruption recovery -/

/-- C2 counterexample.  The file content `"todos habits"` is valid JSON text
for a JSON string — a value that is not an object of collections — yet
`load_data` returns it unchanged and creates no backup: Python's membership
test `"todos" not in raw` is a substring test on strings, and both key names
occur as substrings, so the merge loop raises nothing and `return raw` runs.
This refutes the claim that every unparseable-as-structure content is backed
up and replaced by the default state. -/
theorem load_str_passing_membership_kept :
    (load_data (some (.wellFormed (.str "todos habits"))) 0).result =
      .str "todos habits" ∧
    (load_data (some (.wellFormed (.str "todos habits"))) 0).backup = none ∧
    JsonVal.str "todos habits" ≠ defaultData := by
  refine ⟨rfl, rfl, ?_⟩
  intro h
  exact JsonVal.noConfusion h

/-- C2 amended.  If the storage file exists but `json.load` rejects it, or it
parses to a value on which the default-merge loop raises (any value on which
Python's `k in raw` / `raw[k] = v` fails, which covers every non-object value
except those containing both `"todos"` and `"habits"` as members or
substrings), then `load_data` renames the file to
`<original-name>.bak.<epoch-seconds>` preserving the unreadable content, and
returns the default state with empty todos and habits, surfacing no error. -/
theorem load_corrupt_backs_up :
    (∀ (raw : String) (now : Nat),
        load_data (some (.malformed raw)) now =
          { result := defaultData,
            backup := some (backupName now, .malformed raw) }) ∧
    (∀ (j : JsonVal) (now : Nat), mergeDefaults j = .error () →
        load_data (some (.wellFormed j)) now =
          { result := defaultData,
            backup := some (backupName now, .wellFormed j) }) := by
  constructor
  · intro raw now
    rfl
  · intro j now h
    simp [load_data, h]

/-- Witness for C2's amended theorem at concrete corrupt contents. -/
theorem load_corrupt_backs_up_witness :
    load_data (some (.wellFormed (.num 5))) 7 =
      { result := defaultData, backup := some (backupName 7, .wellFormed (.num 5)) } ∧
    load_data (some (.malformed "not json")) 7 =
      { result := defaultData, backup := some (backupName 7, .malformed "not json") } :=
  ⟨load_corrupt_backs_up.2 (.num 5) 7 rfl, load_corrupt_backs_up.1 "not json" 7⟩

/-! ### C3 — additive schema migration -/

theorem setKey_absent (fields : List (String × JsonVal)) (k : String) (v : JsonVal)
    (h : lookupKey fields k = none) : setKey fields k v = fields ++ [(k, v)] := by
  induction fields with
  | nil => rfl
  | cons p rest ih =>
    obtain ⟨k', v'⟩ := p
    by_cases hk : k' = k
    · simp [lookupKey, hk] at h
    · simp [lookupKey, hk] at h
      simp [setKey, hk, ih h]

theorem lookupKey_append_some (l1 l2 : List (String × JsonVal)) (k : String)
    (v : JsonVal) (h : lookupKey l1 k = some v) :
    lookupKey (l1 ++ l2) k = some v := by
  induction l1 with
  | nil => simp [lookupKey] at h
  | cons p rest ih =>
    obtain ⟨k', v'⟩ := p
    by_cases hk : k' = k
    · simp [lookupKey, hk] at h ⊢
      exact h
    · simp [lookupKey, hk] at h ⊢
      exact ih h

theorem lookupKey_append_none (l1 l2 : List (String × JsonVal)) (k : String)
    (h : lookupKey l1 k = none) :
    lookupKey (l1 ++ l2) k = lookupKey l2 k := by
  induction l1 with
  | nil => rfl
  | cons p rest ih =>
    obtain ⟨k', v'⟩ := p
    by_cases hk : k' = k
    · simp [lookupKey, hk] at h
    · simp [lookupKey, hk] at h ⊢
      exact ih h

theorem except_ok_bind {e a b : Type} (x : a) (f : a → Except e b) :
    (Except.ok x : Except e a) >>= f = f x := rfl

theorem except_pure_eq_ok {e a : Type} (x : a) :
    (pure x : Except e a) = Except.ok x := rfl

/-- C3.  Additive schema migration: when the storage file parses to an object
possibly missing `"todos"` or `"habits"`, `load_data` creates no backup and
returns an object in which every collection that was present is preserved
unchanged while every missing collection is defaulted to the empty
sequence. -/
theorem load_obj_merges_defaults (fields : List (String × JsonVal)) (now : Nat) :
    (load_data (some (.wellFormed (.obj fields))) now).backup = none ∧
    ∃ fields1,
      (load_data (some (.wellFormed (.obj fields))) now).result = .obj fields1 ∧
      (∀ v, lookupKey fields "todos" = some v → lookupKey fields1 "todos" = some v) ∧
      (lookupKey fields "todos" = none → lookupKey fields1 "todos" = some (.arr [])) ∧
      (∀ v, lookupKey fields "habits" = some v → lookupKey fields1 "habits" = some v) ∧
      (lookupKey fields "habits" = none → lookupKey fields1 "habits" = some (.arr [])) := by
  rcases hT : lookupKey fields "todos" with _ | a
  · have h1 : setKey fields "todos" (.arr []) = fields ++ [("todos", .arr [])] :=
      setKey_absent _ _ _ hT
    rcases hH : lookupKey fields "habits" with _ | b
    · have h2 : lookupKey (fields ++ [("todos", .arr [])]) "habits" = none := by
        rw [lookupKey_append_none _ _ _ hH]
        rfl
      have h3 : setKey (fields ++ [("todos", .arr [])]) "habits" (.arr []) =
          fields ++ [("todos", .arr [])] ++ [("habits", .arr [])] :=
        setKey_absent _ _ _ h2
      refine ⟨?_, fields ++ [("todos", .arr [])] ++ [("habits", .arr [])], ?_, ?_, ?_, ?_, ?_⟩
      · simp [load_data, mergeDefaults, mergeStep, except_ok_bind, except_pure_eq_ok,
          pyContains, pySetItem, hT, h1, h2, h3]
      · simp [load_data, mergeDefaults, mergeStep, except_ok_bind, except_pure_eq_ok,
          pyContains, pySetItem, hT, h1, h2, h3]
      · intro v hv
        exact Option.noConfusion hv
      · intro _
        rw [List.append_assoc, lookupKey_append_none _ _ _ hT]
        rfl
      · intro v hv
        exact Option.noConfusion hv
      · intro _
        rw [lookupKey_append_none _ _ _ h2]
        rfl
    · have h2 : lookupKey (fields ++ [("todos", .arr [])]) "habits" = some b :=
        lookupKey_append_some _ _ _ _ hH
      refine ⟨?_, fields ++ [("todos", .arr [])], ?_, ?_, ?_, ?_, ?_⟩
      · simp [load_data, mergeDefaults, mergeStep, except_ok_bind, except_pure_eq_ok,
          pyContains, pySetItem, hT, h1, h2]
      · simp [load_data, mergeDefaults, mergeStep, except_ok_bind, except_pure_eq_ok,
          pyContains, pySetItem, hT, h1, h2]
      · intro v hv
        exact Option.noConfusion hv
      · intro _
        rw [lookupKey_append_none _ _ _ hT]
        rfl
      · intro v hv
        exact Option.some.inj hv ▸ h2
      · intro hnone
        exact Option.noConfusion hnone
  · rcases hH : lookupKey fields "habits" with _ | b
    · have h2 : setKey fields "habits" (.arr []) = fields ++ [("habits", .arr [])] :=
        setKey_absent _ _ _ hH
      refine ⟨?_, fields ++ [("habits", .arr [])], ?_, ?_, ?_, ?_, ?_⟩
      · simp [load_data, mergeDefaults, mergeStep, except_ok_bind, except_pure_eq_ok,
          pyContains, pySetItem, hT, hH, h2]
      · simp [load_data, mergeDefaults, mergeStep, except_ok_bind, except_pure_eq_ok,
          pyContains, pySetItem, hT, hH, h2]
      · intro v hv
        exact Option.some.inj hv ▸ lookupKey_append_some _ _ _ _ hT
      · intro hnone
        exact Option.noConfusion hnone
      · intro v hv
        exact Option.noConfusion hv
      · intro _
        rw [lookupKey_append_none _ _ _ hH]
        rfl
    · refine ⟨?_, fields, ?_, ?_, ?_, ?_, ?_⟩
      · simp [load_data, mergeDefaults, mergeStep, except_ok_bind, except_pure_eq_ok,
          pyContains, hT, hH]
      · simp [load_data, mergeDefaults, mergeStep, except_ok_bind, except_pure_eq_ok,
          pyContains, hT, hH]
      · intro v hv
        exact Option.some.inj hv ▸ hT
      · intro hnone
        exact Option.noConfusion hnone
      · intro v hv
        exact Option.some.inj hv ▸ hH
      · intro hnone
        exact Option.noConfusion hnone

/-- Witness for C3 at a concrete object holding todos but no habits key. -/
theorem load_obj_merges_defaults_witness :
    (load_data (some (.wellFormed (.obj [("todos", .arr [.str "x"])]))) 3).backup = none ∧
    ∃ fields1,
      (load_data (some (.wellFormed (.obj [("todos", .arr [.str "x"])]))) 3).result =
        .obj fields1 ∧
      lookupKey fields1 "todos" = some (.arr [.str "x"]) ∧
      lookupKey fields1 "habits" = some (.arr []) := by
  obtain ⟨hb, fields1, hres, ht, _, _, hh0⟩ :=
    load_obj_merges_defaults [("todos", .arr [.str "x"])] 3
  exact ⟨hb, fields1, hres, ht (.arr [.str "x"]) rfl, hh0 rfl⟩

/-! ### C4 — blank-input guard -/

/-- C4.  Blank-input guard: whenever the input trims to the empty string,
`add_todo` and `add_habit` return the state completely unchanged and do not
invoke `save_data` (the flag is `false`). -/
theorem blank_input_is_noop (s : AppState) (text id created_at : String)
    (h : strip text = "") :
    add_todo text id created_at s = (s, false) ∧
    add_habit text id created_at s = (s, false) := by
  constructor
  · simp [add_todo, h]
  · simp [add_habit, h]

/-- Witness for C4 on the whitespace-only input. -/
theorem blank_input_is_noop_witness :
    add_todo "   " "some-id" "2024-01-01T00:00:00" { todos := [], habits := [] } =
      ({ todos := [], habits := [] }, false) ∧
    add_habit "   " "some-id" "2024-01-01T00:00:00" { todos := [], habits := [] } =
      ({ todos := [], habits := [] }, false) :=
  blank_input_is_noop { todos := [], habits := [] } "   " "some-id"
    "2024-01-01T00:00:00" (by decide)

/-! ### C5 and C9 — clear-all and its confirmation guard -/

/-- C5 counterexample.  Calling `clear_all_data` without passing `confirm`
(the parameter defaults to `False`) on a populated state neither replaces the
state with the default nor saves anything, so the store does impose a
confirmation guard, contrary to the claim. -/
theorem clear_all_without_confirm_keeps_state :
    clear_all_data false populatedState = (populatedState, false) ∧
    populatedState ≠ { todos := [], habits := [] } := by
  constructor
  · rfl
  · decide

/-- C5 amended.  `clear_all_data` replaces the state with the default (empty
tasks, empty habits) and persists it only when `confirm = true` is passed
explicitly; with the default `confirm = false` it leaves the state unchanged
and does not save, so the store itself enforces a confirmation guard (in
addition to any guard in the presentation layer). -/
theorem clear_all_semantics (s : AppState) :
    clear_all_data true s = ({ todos := [], habits := [] }, true) ∧
    clear_all_data false s = (s, false) :=
  ⟨rfl, rfl⟩

/-- C9.  Implicit confirmation guard: `clear_all_data` without
`confirm = true` is a complete no-op — same state, no write — while
`confirm = true` resets the state to the default and saves it. -/
theorem clear_all_requires_confirm (s : AppState) :
    clear_all_data false s = (s, false) ∧
    clear_all_data true s = ({ todos := [], habits := [] }, true) :=
  ⟨rfl, rfl⟩

/-! ### C6 — save failure propagates, no rollback -/

/-- C6.  No rollback on write failure: for every mutating operation that
reaches its `save_data` call, a failing save makes the operation end in an
error, and the in-memory state carried by that error is exactly the state a
successful run would have produced — the attempted mutation is applied before
the write and is not rolled back on failure. -/
theorem save_failure_keeps_mutation (op : Op) (s : AppState)
    (h : (applyOp op s).2 = true) :
    ∃ s1, runOp op true s = .ok s1 ∧ runOp op false s = .error s1 ∧
      s1 = (applyOp op s).1 := by
  refine ⟨(applyOp op s).1, ?_, ?_, rfl⟩
  · rw [runOp]
    rcases hp : applyOp op s with ⟨s1, b⟩
    rw [hp] at h
    cases b
    · exact Bool.noConfusion h
    · rfl
  · rw [runOp]
    rcases hp : applyOp op s with ⟨s1, b⟩
    rw [hp] at h
    cases b
    · exact Bool.noConfusion h
    · rfl

/-- Witness for C6: adding a task while the disk write fails. -/
theorem save_failure_keeps_mutation_witness :
    ∃ s1,
      runOp (.addTodo "buy milk" "id-1" "2024-01-01T00:00:00") true
        { todos := [], habits := [] } = .ok s1 ∧
      runOp (.addTodo "buy milk" "id-1" "2024-01-01T00:00:00") false
        { todos := [], habits := [] } = .error s1 ∧
      s1 = (applyOp (.addTodo "buy milk" "id-1" "2024-01-01T00:00:00")
        { todos := [], habits := [] }).1 :=
  save_failure_keeps_mutation (.addTodo "buy milk" "id-1" "2024-01-01T00:00:00")
    { todos := [], habits := [] } (by decide)

/-! ### C7 — idempotence of the habit toggle -/

/-- C7 counterexample.  On a state whose habit carries today's date twice,
unchecking twice removes both occurrences while unchecking once removes only
the first (`list.remove` drops a single occurrence), so the two results
differ and the operation is not idempotent over every AppState. -/
theorem toggle_twice_differs_on_duplicates :
    (toggle_habit_today "h1" false "2024-06-01"
        (toggle_habit_today "h1" false "2024-06-01"
          { todos := [], habits := [dupHabit] }).1).1 ≠
      (toggle_habit_today "h1" false "2024-06-01"
        { todos := [], habits := [dupHabit] }).1 := by
  decide

theorem updDates_idem (checked : Bool) (today : String) (ds : List String)
    (hc : ds.count today ≤ 1) :
    updDates checked today (updDates checked today ds) = updDates checked today ds := by
  by_cases hm : today ∈ ds
  · cases checked
    · have h1 : updDates false today ds = ds.erase today := by
        simp [updDates, hm]
      have h0 : (ds.erase today).count today = 0 := by
        rw [List.count_erase_self]
        exact Nat.sub_eq_zero_of_le hc
      have hnm : today ∉ ds.erase today := by
        rw [← List.count_eq_zero]
        exact h0
      rw [h1]
      simp [updDates, hnm]
    · have h1 : updDates true today ds = ds := by
        simp [updDates, hm]
      rw [h1, h1]
  · cases checked
    · have h1 : updDates false today ds = ds := by
        simp [updDates, hm]
      rw [h1, h1]
    · have h1 : updDates true today ds = ds ++ [today] := by
        simp [updDates, hm]
      have hm2 : today ∈ ds ++ [today] := by
        simp
      rw [h1]
      simp [updDates, hm2]

theorem toggleHabitsList_idem (habit_id : String) (checked : Bool) (today : String)
    (l : List Habit) (hc : ∀ h ∈ l, h.completed_dates.count today ≤ 1) :
    toggleHabitsList habit_id checked today
        (toggleHabitsList habit_id checked today l) =
      toggleHabitsList habit_id checked today l := by
  induction l with
  | nil => rfl
  | cons h rest ih =>
    by_cases hh : h.id = habit_id
    · simp only [toggleHabitsList, hh, if_pos]
      rw [updDates_idem checked today h.completed_dates (hc h (List.mem_cons_self h rest))]
    · simp only [toggleHabitsList, hh, if_neg, ite_false]
      rw [ih (fun h1 hm => hc h1 (List.mem_cons_of_mem h hm))]

theorem toggleHabitsList_absent (habit_id : String) (checked : Bool) (today : String)
    (l : List Habit) (habs : ∀ h ∈ l, h.id ≠ habit_id) :
    toggleHabitsList habit_id checked today l = l := by
  induction l with
  | nil => rfl
  | cons h rest ih =>
    rw [toggleHabitsList, if_neg (habs h (List.mem_cons_self h rest))]
    rw [ih (fun h1 hm => habs h1 (List.mem_cons_of_mem h hm))]

/-- C7 amended.  `toggle_habit_today` is idempotent on every state satisfying
the data-model invariant that no habit's `completed_dates` contains a
duplicate of today's date (`count ≤ 1`): applying it twice with the same
`checked` value yields exactly the state — hence the `completed_dates` — of
applying it once.  With `checked = true` today is appended only when absent
and with `checked = false` the single occurrence is removed only when
present; when no habit has the requested id the state is left unchanged.
Without that invariant idempotence fails (see the counterexample): a
duplicated date makes a second uncheck remove a second occurrence. -/
theorem set_habit_today_idempotent (s : AppState) (habit_id : String)
    (checked : Bool) (today : String)
    (hc : ∀ h ∈ s.habits, h.completed_dates.count today ≤ 1) :
    (toggle_habit_today habit_id checked today
        (toggle_habit_today habit_id checked today s).1).1 =
      (toggle_habit_today habit_id checked today s).1 ∧
    ((∀ h ∈ s.habits, h.id ≠ habit_id) →
      (toggle_habit_today habit_id checked today s).1 = s) := by
  constructor
  · simp only [toggle_habit_today]
    rw [toggleHabitsList_idem habit_id checked today s.habits hc]
  · intro habs
    simp only [toggle_habit_today]
    rw [toggleHabitsList_absent habit_id checked today s.habits habs]

/-- Witness for C7's amended theorem on a habit completed once today. -/
theorem set_habit_today_idempotent_witness :
    (toggle_habit_today "h1" false "2024-06-01"
        (toggle_habit_today "h1" false "2024-06-01"
          { todos := [],
            habits := [{ id := "h1", name := "stretch",
                         created_at := "2024-01-01T00:00:00",
                         completed_dates := ["2024-06-01"] }] }).1).1 =
      (toggle_habit_today "h1" false "2024-06-01"
        { todos := [],
          habits := [{ id := "h1", name := "stretch",
                       created_at := "2024-01-01T00:00:00",
                       completed_dates := ["2024-06-01"] }] }).1 ∧
    (toggle_habit_today "zz" true "2024-06-01"
        { todos := [],
          habits := [{ id := "h1", name := "stretch",
                       created_at := "2024-01-01T00:00:00",
                       completed_dates := ["2024-06-01"] }] }).1 =
      { todos := [],
        habits := [{ id := "h1", name := "stretch",
                     created_at := "2024-01-01T00:00:00",
                     completed_dates := ["2024-06-01"] }] } :=
  ⟨(set_habit_today_idempotent _ "h1" false "2024-06-01" (by decide)).1,
   (set_habit_today_idempotent _ "zz" true "2024-06-01" (by decide)).2 (by decide)⟩

/-! ### C8 — id uniqueness under fresh id generation -/

theorem applyAdd_taskIds (op : AddOp) (s : AppState) :
    taskIds (applyAdd op s) = taskIds s ∨
    taskIds (applyAdd op s) = taskIds s ++ [addOpId op] := by
  cases op with
  | task t i c =>
    by_cases hb : strip t = ""
    · left
      simp [applyAdd, add_todo, hb]
    · right
      simp [applyAdd, add_todo, hb, taskIds, addOpId]
  | habit n i c =>
    left
    by_cases hb : strip n = ""
    · simp [applyAdd, add_habit, hb]
    · simp [applyAdd, add_habit, hb, taskIds]

theorem applyAdd_habitIds (op : AddOp) (s : AppState) :
    habitIds (applyAdd op s) = habitIds s ∨
    habitIds (applyAdd op s) = habitIds s ++ [addOpId op] := by
  cases op with
  | task t i c =>
    left
    by_cases hb : strip t = ""
    · simp [applyAdd, add_todo, hb]
    · simp [applyAdd, add_todo, hb, habitIds]
  | habit n i c =>
    by_cases hb : strip n = ""
    · left
      simp [applyAdd, add_habit, hb]
    · right
      simp [applyAdd, add_habit, hb, habitIds, addOpId]

theorem nodup_append_singleton {l : List String} {a : String}
    (hn : l.Nodup) (ha : a ∉ l) : (l ++ [a]).Nodup := by
  rw [List.nodup_append]
  refine ⟨hn, List.nodup_singleton a, ?_⟩
  intro x hx hxa
  rw [List.mem_singleton] at hxa
  subst hxa
  exact ha hx

/-- C8.  Id uniqueness: assuming every generated id is fresh for the state
its call sees, any sequence of `add_todo`/`add_habit` calls starting from a
state with pairwise-distinct task ids and habit ids ends in a state whose
task ids and habit ids are again pairwise distinct; moreover the initial id
sequences survive as a prefix (appends only — no id of an existing record is
ever changed). -/
theorem add_sequence_ids_unique (s : AppState) (ops : List AddOp)
    (hf : FreshSeq s ops) (ht : (taskIds s).Nodup) (hh : (habitIds s).Nodup) :
    (taskIds (applyAdds ops s)).Nodup ∧ (habitIds (applyAdds ops s)).Nodup ∧
    (∃ t, taskIds (applyAdds ops s) = taskIds s ++ t) ∧
    (∃ u, habitIds (applyAdds ops s) = habitIds s ++ u) := by
  induction hf with
  | nil s => exact ⟨ht, hh, ⟨[], by simp [applyAdds]⟩, ⟨[], by simp [applyAdds]⟩⟩
  | cons s op ops hfr hhf hrest ih =>
    have hstep : applyAdds (op :: ops) s = applyAdds ops (applyAdd op s) := rfl
    have ht1 : (taskIds (applyAdd op s)).Nodup := by
      rcases applyAdd_taskIds op s with he | he
      · rw [he]; exact ht
      · rw [he]; exact nodup_append_singleton ht hfr
    have hh1 : (habitIds (applyAdd op s)).Nodup := by
      rcases applyAdd_habitIds op s with he | he
      · rw [he]; exact hh
      · rw [he]; exact nodup_append_singleton hh hhf
    obtain ⟨hn1, hn2, ⟨t1, hpt⟩, ⟨u1, hpu⟩⟩ := ih ht1 hh1
    rw [hstep]
    refine ⟨hn1, hn2, ?_, ?_⟩
    · rcases applyAdd_taskIds op s with he | he
      · exact ⟨t1, by rw [hpt, he]⟩
      · exact ⟨[addOpId op] ++ t1, by rw [hpt, he, List.append_assoc]⟩
    · rcases applyAdd_habitIds op s with he | he
      · exact ⟨u1, by rw [hpu, he]⟩
      · exact ⟨[addOpId op] ++ u1, by rw [hpu, he, List.append_assoc]⟩

/-- Witness for C8: two tasks and a habit added with distinct fresh ids. -/
theorem add_sequence_ids_unique_witness :
    (taskIds (applyAdds
        [.task "a" "id-1" "t1", .task "b" "id-2" "t2", .habit "c" "id-3" "t3"]
        { todos := [], habits := [] })).Nodup ∧
    (habitIds (applyAdds
        [.task "a" "id-1" "t1", .task "b" "id-2" "t2", .habit "c" "id-3" "t3"]
        { todos := [], habits := [] })).Nodup ∧
    (∃ t, taskIds (applyAdds
        [.task "a" "id-1" "t1", .task "b" "id-2" "t2", .habit "c" "id-3" "t3"]
        { todos := [], habits := [] }) =
      taskIds { todos := [], habits := [] } ++ t) ∧
    (∃ u, habitIds (applyAdds
        [.task "a" "id-1" "t1", .task "b" "id-2" "t2", .habit "c" "id-3" "t3"]
        { todos := [], habits := [] }) =
      habitIds { todos := [], habits := [] } ++ u) :=
  add_sequence_ids_unique { todos := [], habits := [] }
    [.task "a" "id-1" "t1", .task "b" "id-2" "t2", .habit "c" "id-3" "t3"]
    (.cons _ _ _ (by decide) (by decide)
      (.cons _ _ _ (by decide) (by decide)
        (.cons _ _ _ (by decide) (by decide) (.nil _))))
    (by decide) (by decide)

/-! ### C10 — totality precondition of the habit toggle -/

theorem except_error_bind {e a b : Type} (x : e) (f : a → Except e b) :
    (Except.error x : Except e a) >>= f = Except.error x := rfl

/-- C10.  Totality precondition of `toggle_habit_today`: (1) if the first
habit record matching the requested id lacks the `completed_dates` key, the
operation raises a `KeyError` instead of treating the completion set as
empty; (2) `add_habit` always establishes that key (as the empty list); and
(3) `load_data` defaults only the top-level `todos`/`habits` keys, so a
stored habit record missing `completed_dates` is handed to the store
unchanged — together: the operation is total only on states whose habit
records all carry `completed_dates`. -/
theorem toggle_missing_dates_key_raises :
    (∀ (h : RawRecord) (rest : List RawRecord) (checked : Bool)
        (today hid : String),
        lookupKey h "id" = some (.str hid) →
        lookupKey h "completed_dates" = none →
        toggle_habit_today_raw hid checked today (h :: rest) = .error ()) ∧
    (∀ name id created_at : String,
        lookupKey (habitRawRecord name id created_at) "completed_dates" =
          some (.arr [])) ∧
    (∀ (hfields : RawRecord) (tv : JsonVal) (now : Nat),
        (load_data (some (.wellFormed
            (.obj [("todos", tv), ("habits", .arr [.obj hfields])]))) now).result =
          .obj [("todos", tv), ("habits", .arr [.obj hfields])]) := by
  refine ⟨?_, ?_, ?_⟩
  · intro h rest checked today hid h1 h2
    simp [toggle_habit_today_raw, dictGet, h1, h2, pyEqStr, except_ok_bind,
      except_error_bind]
  · intro name id created_at
    rfl
  · intro hfields tv now
    have h1 : lookupKey [("todos", tv), ("habits", .arr [.obj hfields])] "todos" =
        some tv := rfl
    have h2 : lookupKey [("todos", tv), ("habits", .arr [.obj hfields])] "habits" =
        some (.arr [.obj hfields]) := rfl
    simp [load_data, mergeDefaults, mergeStep, except_ok_bind, except_pure_eq_ok,
      pyContains, h1, h2]

/-- Witness for C10 at a habit record carrying only its id. -/
theorem toggle_missing_dates_key_raises_witness :
    toggle_habit_today_raw "h1" true "2024-06-01" [[("id", .str "h1")]] =
      .error () :=
  toggle_missing_dates_key_raises.1 [("id", .str "h1")] [] true "2024-06-01" "h1"
    rfl rfl

end HabitApp
